import Mathlib

/-!
Shallow embedding of `bcbio/chipseq/atac.py` and `bcbio/chipseq/peaks.py`.

Modelling conventions:
* A Python sample record (the `data` dictionary) is embedded as the `Sample`
  structure below, with one field per accessor the two modules use.  The
  accessors themselves (`dd.get_sample_name`, `dd.get_phenotype`, ...) are
  external collaborators, so they become plain field projections.
* The filesystem is an association list from path to file content; writes
  prepend, lookups take the newest binding.  `utils.file_exists` becomes
  `fsExists`.
* External command invocations (`do.run`, `bam.sort`, `bam.index`,
  `gtf.get_tss_bed`) are recorded as values of the inductive `ExtCmd`;
  the content a command writes is supplied by an oracle `exec : ExtCmd → String`
  standing for the external world.  Each embedded operation returns the list
  of commands it ran, so "no external command is invoked" is expressible.
* Python `/` on integers is exact rational division, except that a zero
  divisor raises `ZeroDivisionError`; fallible paths therefore live in
  `Except String`.
-/

/-- Python truthiness of an optional string: `None` and `""` are falsy. -/
def optFalsy : Option String → Bool
  | none => true
  | some s => s == ""

/-- Python `str.split(sep)` for a one-character separator, over the character
list (structural recursion, so concrete instances reduce definitionally). -/
def splitOnChar (c : Char) : List Char → List (List Char)
  | [] => [[]]
  | x :: xs =>
    match splitOnChar c xs with
    | [] => [[x]]
    | h :: t => if x == c then [] :: h :: t else (x :: h) :: t

/-- `str.split(sep)` on strings. -/
def pySplitChar (c : Char) (s : String) : List String :=
  (splitOnChar c s.data).map String.mk

/-- The whitespace characters `str.strip()` removes. -/
def isPyWs (c : Char) : Bool :=
  c == ' ' || c == '\t' || c == '\n' || c == '\r'

/-- Python `str.strip()`. -/
def pyStrip (s : String) : String :=
  String.mk (((s.data.dropWhile isPyWs).reverse.dropWhile isPyWs).reverse)

/-- An unsigned decimal digit string, or `none` (helper for `int(v)`). -/
def parseNatDigits (cs : List Char) : Option Nat :=
  if cs.isEmpty then none
  else cs.foldl (fun acc c =>
    match acc with
    | none => none
    | some n => if c.isDigit then some (n * 10 + (c.toNat - 48)) else none) (some 0)

/-- Python `int(v)` on an already-stripped field: an optional sign followed by
decimal digits; `none` stands for the `ValueError` it raises otherwise. -/
def pyToInt (s : String) : Option Int :=
  match s.data with
  | '-' :: rest => (parseNatDigits rest).map (fun n => -(n : Int))
  | '+' :: rest => (parseNatDigits rest).map (fun n => (n : Int))
  | cs => (parseNatDigits cs).map (fun n => (n : Int))

/-- Python `str.endswith(suffix)`. -/
def pyEndsWith (s suffix : String) : Bool :=
  suffix.data.isSuffixOf s.data

/-- Python substring test `a in b` for strings. -/
def isSubstring (a b : String) : Bool :=
  (List.range (b.data.length + 1)).any (fun i => a.data.isPrefixOf (b.data.drop i))

/-- The value of the `batch` metadata field: Python code stores either a single
batch id (a string) or a list of batch ids. -/
inductive BatchVal where
  | str (s : String)
  | list (l : List String)
deriving DecidableEq

/-- Python's `x in y` as used by `_get_paired_samples` on batch values:
membership when the right operand is a list, substring test when it is a
string.  (`list in str` raises `TypeError` in Python; it is modelled as a
non-match here and is unreachable for the inputs the claims quantify over.) -/
def pyIn (x y : BatchVal) : Bool :=
  match x, y with
  | .str a, .str b => isSubstring a b
  | .str a, .list l => l.contains a
  | .list _, .str _ => false
  | .list _, .list _ => false

/-- The value of `config["algorithm"]["peakcaller"]`: a caller name or a list
of caller names.  Iterating a string yields its characters, which is the
behaviour `peakcall_preparation` inherits from Python's `for caller in ...`. -/
inductive PeakcallerVal where
  | str (s : String)
  | list (l : List String)
deriving DecidableEq

/-- Python iteration over a peakcaller configuration value: a list iterates
its elements, a string iterates its one-character substrings. -/
def iterPeakcaller : PeakcallerVal → List String
  | .str s => s.data.map (fun c => String.mk [c])
  | .list l => l

/-- The sample record (`data` in the Python source).  One field per external
accessor used by `atac.py`/`peaks.py`; nested keys such as
`['atac', 'align']` become flat optional fields. -/
structure Sample where
  name : String
  phenotype : String
  batch : BatchVal
  work_bam : String
  work_dir : String
  chip_method : String
  num_cores : Nat
  gtf_file : String
  prog_bedtools : String
  prog_sambamba : String
  prog_ataqv : String
  peakcaller : Option PeakcallerVal
  work_bam_input : Option String
  peak_fn : Option String
  peaks_file : Option String
  atac_complexity_metrics_file : Option String
  atac_align : Option (List (String × String))
  peaks_files_NF_macs2 : List String
  mito_chroms : List String
  nonmito_chroms : List String
deriving DecidableEq

/-- The filesystem: newest-first association list from path to content. -/
abbrev FS := List (String × String)

def fsLookup (fs : FS) (p : String) : Option String :=
  (fs.find? (fun kv => kv.1 == p)).map (fun kv => kv.2)

/-- `utils.file_exists`. -/
def fsExists (fs : FS) (p : String) : Bool :=
  (fsLookup fs p).isSome

/-- A successful transactional write: the content appears at the final path. -/
def fsInsert (fs : FS) (p c : String) : FS :=
  (p, c) :: fs

/-- External command invocations performed via `do.run` or the wrapped
bam/gtf utilities, with the output path each one produces. -/
inductive ExtCmd where
  | bamSortQueryname (bam sorted : String)
  | bedtoolsComplexity (bedtools bam out : String)
  | sambambaView (sambamba : String) (cores : Nat) (label : String) (lo hi : Int) (bam out : String)
  | bamIndex (bam : String)
  | tssBed (gtf out : String)
  | ataqvRun (ataqv peak name tss autosomal mito bam out : String)
deriving DecidableEq

/-- The file an external command writes. -/
def ExtCmd.target : ExtCmd → String
  | .bamSortQueryname _ s => s
  | .bedtoolsComplexity _ _ o => o
  | .sambambaView _ _ _ _ _ _ o => o
  | .bamIndex b => b
  | .tssBed _ o => o
  | .ataqvRun _ _ _ _ _ _ _ o => o

/-- Last index of a character in a list, `-1` when absent
(Python's `str.rfind`). -/
def lastIdxOf (cs : List Char) (c : Char) : Int :=
  (cs.foldl (fun (acc : Int × Int) x => (if x == c then acc.2 else acc.1, acc.2 + 1)) (-1, 0)).1

/-- The stem `os.path.splitext(p)[0]`: cut at the last dot of the basename,
unless every character of the basename before that dot is itself a dot. -/
def splitextStem (p : String) : String :=
  let cs := p.data
  let sepIdx := lastIdxOf cs '/'
  let dotIdx := lastIdxOf cs '.'
  if sepIdx < dotIdx then
    if (((cs.drop (sepIdx + 1).toNat).take (dotIdx - (sepIdx + 1)).toNat).any (fun ch => ch != '.')) then
      String.mk (cs.take dotIdx.toNat)
    else p
  else p

/-- `ATACRange = namedtuple('ATACRange', ['label', 'min', 'max'])`. -/
structure ATACRange where
  label : String
  min : Int
  max : Int
deriving DecidableEq

/-- The fixed range catalog (`ATACRanges` in `atac.py`), in insertion order. -/
def ATACRanges : List (String × ATACRange) :=
  [("NF", ⟨"NF", 0, 100⟩),
   ("MN", ⟨"MN", 180, 247⟩),
   ("DN", ⟨"DN", 315, 473⟩),
   ("TN", ⟨"TN", 558, 615⟩)]

/-- `ATACRanges.values()`. -/
def atacRangesValues : List ATACRange :=
  ATACRanges.map (fun kv => kv.2)

/-- The meaning of the sambamba filter expression
`template_length > {min} and template_length < {max}` that `split_ATAC`
builds for a range: the predicate applied to a record's template length. -/
def templateLengthFilter (lo hi L : Int) : Bool :=
  decide (lo < L) && decide (L < hi)

/-- Python `/` on two integers, as exact rational division; a zero divisor
raises `ZeroDivisionError`. -/
def pydiv (a b : Int) : Except String Rat :=
  if b = 0 then .error "ZeroDivisionError" else .ok ((a : Rat) / (b : Rat))

/-- The deterministic metrics path
`{workDir}/metrics/atac/{sampleName}-atac-metrics.csv`. -/
def metricsFilePath (data : Sample) : String :=
  data.work_dir ++ "/metrics/atac/" ++ data.name ++ "-atac-metrics.csv"

/-- Modelled from the spec: the external BAM sort utility (`bam.sort` with
queryname order) writes a name-sorted copy at a derived path and returns it. -/
def bamSortName (bam : String) : String :=
  splitextStem bam ++ ".nsorted.bam"

/-- `calculate_complexity_metrics(work_bam, data)`: memoized on the metrics
file; otherwise sorts the BAM by name and runs the bedtools/awk pipeline,
writing the header line plus the pipeline's output transactionally. -/
def calculate_complexity_metrics (work_bam : String) (data : Sample) (fs : FS)
    (exec : ExtCmd → String) : Sample × FS × List ExtCmd :=
  let metrics_file := metricsFilePath data
  if fsExists fs metrics_file then
    ({data with atac_complexity_metrics_file := some metrics_file}, fs, [])
  else
    let sorted := bamSortName work_bam
    let sortCmd := ExtCmd.bamSortQueryname work_bam sorted
    let cmd := ExtCmd.bedtoolsComplexity data.prog_bedtools sorted metrics_file
    ({data with atac_complexity_metrics_file := some metrics_file},
     fsInsert fs metrics_file ("mt,m0,m1,m2\n" ++ exec cmd),
     [sortCmd, cmd])

/-- The lines of a text file as Python iterates them (terminators stripped by
the subsequent `.strip()`, so they are dropped here). -/
def pyLines (s : String) : List String :=
  let parts := pySplitChar '\n' s
  if parts.getLast? = some "" then parts.dropLast else parts

/-- The dict comprehension plus `int(v)` parse in
`calculate_encode_complexity_metrics`: left-to-right, `ValueError` on a
non-integer field. -/
def parseIntFields : List (String × String) → Except String (List (String × Int))
  | [] => .ok []
  | (h, v) :: rest =>
    match pyToInt v with
    | some i =>
      match parseIntFields rest with
      | .ok l => .ok ((h, i) :: l)
      | .error e => .error e
    | none => .error "ValueError"

/-- Reading and parsing the two-line metrics CSV: `next` twice
(`StopIteration` on a short file), strip, split on commas, zip, parse ints. -/
def parseRawMetrics (content : String) : Except String (List (String × Int)) :=
  let lines := pyLines content
  match lines.get? 0, lines.get? 1 with
  | some hline, some vline =>
    parseIntFields ((pySplitChar ',' (pyStrip hline)).zip (pySplitChar ',' (pyStrip vline)))
  | _, _ => .error "StopIteration"

/-- Python dict lookup on the parsed assoc list (last binding wins,
`KeyError` when absent). -/
def dictGet (d : List (String × Int)) (k : String) : Except String Int :=
  match d.reverse.find? (fun kv => kv.1 == k) with
  | some kv => .ok kv.2
  | none => .error "KeyError"

/-- The arithmetic tail of `calculate_encode_complexity_metrics`, in Python
evaluation order: `PBC1 = m1/m0`, `NRF = m0/mt`, then
`PBC2 = 0 if m2 == 0 else m1/m2`. -/
def encodeMetricsFromRaw (raw : List (String × Int)) : Except String (List (String × Rat)) :=
  match dictGet raw "m1" with
  | .error e => .error e
  | .ok m1 =>
    match dictGet raw "m0" with
    | .error e => .error e
    | .ok m0 =>
      match pydiv m1 m0 with
      | .error e => .error e
      | .ok pbc1 =>
        match dictGet raw "mt" with
        | .error e => .error e
        | .ok mt =>
          match pydiv m0 mt with
          | .error e => .error e
          | .ok nrf =>
            match dictGet raw "m2" with
            | .error e => .error e
            | .ok m2 =>
              if m2 = 0 then
                .ok [("PBC1", pbc1), ("NRF", nrf), ("PBC2", 0)]
              else
                match pydiv m1 m2 with
                | .error e => .error e
                | .ok pbc2 => .ok [("PBC1", pbc1), ("NRF", nrf), ("PBC2", pbc2)]

/-- `calculate_encode_complexity_metrics(data)`: empty result when no metrics
path is recorded (Python falsy test), otherwise open, parse and compute. -/
def calculate_encode_complexity_metrics (data : Sample) (fs : FS) :
    Except String (List (String × Rat)) :=
  match data.atac_complexity_metrics_file with
  | none => .ok []
  | some mf =>
    if mf == "" then .ok []
    else
      match fsLookup fs mf with
      | none => .error "FileNotFoundError"
      | some content =>
        match parseRawMetrics content with
        | .error e => .error e
        | .ok raw => encodeMetricsFromRaw raw

/-- The BAM `split_ATAC` works on:
`bam_file if bam_file else dd.get_work_bam(data)` (Python truthiness). -/
def split_bam_resolved (data : Sample) (bam_file : Option String) : String :=
  match bam_file with
  | some b => if b == "" then data.work_bam else b
  | none => data.work_bam

/-- The per-range output path `f"{out_stem}-{arange.label}.bam"`. -/
def splitOutFile (bam : String) (label : String) : String :=
  splitextStem bam ++ "-" ++ label ++ ".bam"

/-- One iteration of `split_ATAC`'s range loop: skip when the output exists,
otherwise run the sambamba filter transactionally and index the result;
either way record `label -> out_file`. -/
def split_step (sambamba : String) (cores : Nat) (bam_file : String)
    (exec : ExtCmd → String)
    (acc : List (String × String) × FS × List ExtCmd) (r : ATACRange) :
    List (String × String) × FS × List ExtCmd :=
  let out_file := splitOutFile bam_file r.label
  if fsExists acc.2.1 out_file then
    (acc.1 ++ [(r.label, out_file)], acc.2.1, acc.2.2)
  else
    let c := ExtCmd.sambambaView sambamba cores r.label r.min r.max bam_file out_file
    let ic := ExtCmd.bamIndex out_file
    (acc.1 ++ [(r.label, out_file)], fsInsert acc.2.1 out_file (exec c), acc.2.2 ++ [c, ic])

/-- `split_ATAC(data, bam_file=None)`: loop over the range catalog, then add
`"full" -> bam_file` and store the mapping at `['atac', 'align']`. -/
def split_ATAC (data : Sample) (bam_file : Option String) (fs : FS)
    (exec : ExtCmd → String) : Sample × FS × List ExtCmd :=
  let bamf := split_bam_resolved data bam_file
  let res := atacRangesValues.foldl (split_step data.prog_sambamba data.num_cores bamf exec) ([], fs, [])
  ({data with atac_align := some (res.1 ++ [("full", bamf)])}, res.2.1, res.2.2)

/-- `get_NF_bam(data)`: `tz.get_in(("atac", "align", "NF"), data, None)`. -/
def get_NF_bam (data : Sample) : Option String :=
  data.atac_align.bind (fun m => (m.find? (fun kv => kv.1 == "NF")).map (fun kv => kv.2))

/-- `get_NF_peaks(data)`: first recorded NF macs2 peak file whose name ends in
`narrowPeak` or `broadPeak`. -/
def get_NF_peaks (data : Sample) : Option String :=
  data.peaks_files_NF_macs2.find? (fun f => pyEndsWith f "narrowPeak" || pyEndsWith f "broadPeak")

/-- The ataqv output directory `{workDir}/qc/{sampleName}/ataqv`. -/
def ataqvOutDir (data : Sample) : String :=
  data.work_dir ++ "/qc/" ++ data.name ++ "/ataqv"

/-- The deterministic ataqv output
`{workDir}/qc/{sampleName}/ataqv/{sampleName}.ataqv.json.gz`. -/
def ataqvOutFile (data : Sample) : String :=
  ataqvOutDir data ++ "/" ++ data.name ++ ".ataqv.json.gz"

/-- Modelled from the spec: `gtf.get_tss_bed` (external GTF utility) builds the
padded TSS BED at the requested path on demand, cached at that path. -/
def get_tss_bed (gtf_file out_file : String) (fs : FS) (exec : ExtCmd → String) :
    String × FS × List ExtCmd :=
  if fsExists fs out_file then (out_file, fs, [])
  else
    let c := ExtCmd.tssBed gtf_file out_file
    (out_file, fsInsert fs out_file (exec c), [c])

/-- `_make_autosomal_reference_file`: cached; otherwise writes one
non-mitochondrial chromosome name per line (no external command). -/
def make_autosomal_reference_file (out_file : String) (data : Sample) (fs : FS) :
    String × FS :=
  if fsExists fs out_file then (out_file, fs)
  else (out_file, fsInsert fs out_file (String.join (data.nonmito_chroms.map (fun ch => ch ++ "\n"))))

/-- `run_ataqv(data)`: skip unless the assay method is `"atac"`; skip when the
NF peak file or NF BAM is missing; return the cached output when it exists;
otherwise build the TSS and autosomal auxiliaries, take the first
mitochondrial chromosome name (`IndexError` when there is none), skip when
the ataqv binary is not resolvable, and finally run ataqv transactionally. -/
def run_ataqv (data : Sample) (fs : FS) (exec : ExtCmd → String) :
    Except String (Option String × FS × List ExtCmd) :=
  if !(data.chip_method == "atac") then .ok (none, fs, [])
  else
    let out_dir := ataqvOutDir data
    let peak_file := get_NF_peaks data
    let bam_file := get_NF_bam data
    let out_file := ataqvOutFile data
    if optFalsy peak_file then .ok (none, fs, [])
    else if optFalsy bam_file then .ok (none, fs, [])
    else if fsExists fs out_file then .ok (some out_file, fs, [])
    else
      let t := get_tss_bed data.gtf_file (out_dir ++ "/TSS.bed") fs exec
      let a := make_autosomal_reference_file (out_dir ++ "/autosomal.txt") data t.2.1
      match data.mito_chroms with
      | [] => .error "IndexError"
      | mitoname :: _ =>
        if data.prog_ataqv == "" then .ok (none, a.2, t.2.2)
        else
          let cmd := ExtCmd.ataqvRun data.prog_ataqv (peak_file.getD "") data.name
              t.1 a.1 mitoname (bam_file.getD "") out_file
          .ok (some out_file, fsInsert a.2 out_file (exec cmd), t.2.2 ++ [cmd])

/-- The key set of the caller registry returned by `get_callers()`. -/
def callerKeys : List String := ["macs2"]

/-- `_get_paired_samples(sample, data)`: scan the collection (each group is a
one-element sequence in the framework convention, embedded here as its sole
sample); on the first candidate whose batch value contains the sample's batch
and whose phenotype is `"input"`, set `work_bam_input` and return the task;
`None` when the loop falls through. -/
def _get_paired_samples (sample : Sample) : List Sample → Option Sample
  | [] => none
  | origin :: rest =>
    if pyIn sample.batch origin.batch && origin.phenotype == "input" then
      some {sample with work_bam_input := some origin.work_bam}
    else _get_paired_samples sample rest

/-- The state of the `mimic` variable inside `peakcall_preparation`'s caller
loop: a sample record, the one-element list `_get_paired_samples` returns
(embedded as its sole element), or `None`. -/
inductive MimicVal where
  | samp (s : Sample)
  | lst (s : Sample)
  | noneV
deriving DecidableEq

/-- One iteration of the caller loop.  `dd.get_phenotype(mimic)` yields no
match once `mimic` is a list or `None`, so the body only fires on a sample
record with phenotype `"chip"` and a caller present in the registry. -/
def prep_step (d : List Sample) (acc : MimicVal × List Sample × List String)
    (caller : String) : MimicVal × List Sample × List String :=
  match acc with
  | (MimicVal.samp s, tp, logs) =>
    if callerKeys.contains caller && s.phenotype == "chip" then
      let s' := {s with peak_fn := some caller}
      match _get_paired_samples s' d with
      | some t => (MimicVal.lst t, tp ++ [t], logs)
      | none => (MimicVal.noneV, tp, logs ++ ["No input sample for " ++ s'.name])
    else acc
  | _ => acc

/-- The body of `peakcall_preparation`'s outer loop for one sample group:
copy the sample, iterate the configured callers (default the string
`"macs2"`), and collect the appended tasks and log messages. -/
def prep_sample (d : List Sample) (s : Sample) : List Sample × List String :=
  let callers := iterPeakcaller (s.peakcaller.getD (PeakcallerVal.str "macs2"))
  let res := callers.foldl (prep_step d) (MimicVal.samp s, [], [])
  (res.2.1, res.2.2)

/-- Accumulate tasks and logs across the sample collection. -/
def prep_fold (ctx : List Sample) (acc : List Sample × List String) (s : Sample) :
    List Sample × List String :=
  let r := prep_sample ctx s
  (acc.1 ++ r.1, acc.2 ++ r.2)

/-- One step of `_sync`'s inner loop: on a name match, overwrite `peaks_file`
unless the result carries the sentinel `"error"`. -/
def sync_step (o p : Sample) : Sample :=
  if o.name == p.name then
    if p.peaks_file != some "error" then {o with peaks_file := p.peaks_file} else o
  else o

/-- `_sync(original, processed)`: merge results into the original collection
by sample name. -/
def _sync (original processed : List Sample) : List Sample :=
  original.map (fun o => processed.foldl sync_step o)

/-- `peakcall_preparation(data, run_parallel)`: prepare tasks, dispatch the
batch once when it is non-empty, merge with `_sync`.  The log messages are
returned alongside the collection to make the logging observable. -/
def peakcall_preparation (d : List Sample)
    (runP : String → List Sample → List Sample) : List Sample × List String :=
  let acc := d.foldl (prep_fold d) ([], [])
  if acc.1.isEmpty then (d, acc.2)
  else (_sync d (runP "peakcalling" acc.1), acc.2)

/-- The result `_sync` is claimed to produce for one original sample
(following the spec's merge rule): `peaks_file` taken from the last
name-matching result that does not carry the sentinel `"error"` (the first
match of the reversed result list), and the sample — in particular its prior
`peaks_file` — untouched when there is none. -/
def syncResultSpec (processed : List Sample) (o : Sample) : Sample :=
  match processed.reverse.find? (fun p => p.name == o.name && p.peaks_file != some "error") with
  | some p => {o with peaks_file := p.peaks_file}
  | none => o

/-- A stub oracle for witnesses: every external command writes `"out"`. -/
def execStub : ExtCmd → String := fun _ => "out"

/-- A stub dispatcher for witnesses: runs every task as the identity. -/
def runPId : String → List Sample → List Sample := fun _ l => l

/-- A concrete sample record used by the witnesses. -/
def c6Sample : Sample :=
  { name := "s1", phenotype := "chip", batch := BatchVal.str "b1",
    work_bam := "work/s1.bam", work_dir := "wd", chip_method := "atac",
    num_cores := 2, gtf_file := "g.gtf", prog_bedtools := "bedtools",
    prog_sambamba := "sambamba", prog_ataqv := "ataqv",
    peakcaller := none, work_bam_input := none, peak_fn := none,
    peaks_file := none, atac_complexity_metrics_file := none,
    atac_align := none, peaks_files_NF_macs2 := [],
    mito_chroms := ["chrM"], nonmito_chroms := ["chr1"] }

/-- A concrete filesystem pre-seeded with the metrics file and the MN split
BAM of `c6Sample`. -/
def c6FS : FS :=
  [(metricsFilePath c6Sample, "mt,m0,m1,m2\n12,10,8,1\n"),
   (splitOutFile "work/s1.bam" "MN", "mnbam")]

/-- A chip sample with `macs2` explicitly configured, for the witnesses. -/
def c8Chip : Sample :=
  {c6Sample with peakcaller := some (PeakcallerVal.list ["macs2"])}

/-- An input-phenotype sample whose batch list does not contain `"b1"`. -/
def c8Ctrl : Sample :=
  { c6Sample with
    name := "ctl"
    phenotype := "input"
    batch := BatchVal.list ["b2"]
    work_bam := "ctl.bam" }

/-- A sample with a recorded metrics path, for the metrics claims. -/
def c1Sample : Sample :=
  {c6Sample with atac_complexity_metrics_file := some "mf"}

/-- A metrics file with `mt = 0` but `m0 = 1 > 0`. -/
def c1FSbad : FS := [("mf", "mt,m0,m1,m2\n0,1,1,0\n")]

/-- A well-formed metrics file with positive `mt` and `m0`. -/
def c1FSok : FS := [("mf", "mt,m0,m1,m2\n12,10,8,1\n")]

/-- A metrics file whose data row has `m0 = 0`. -/
def c10FS : FS := [("mf", "mt,m0,m1,m2\n5,0,3,2\n")]

/-- An atac sample with NF peak and NF BAM recorded, for the ataqv claims. -/
def c7Sample : Sample :=
  { c6Sample with
    peaks_files_NF_macs2 := ["p.narrowPeak"]
    atac_align := some [("NF", "nf.bam")] }

/-- The same sample with a non-atac assay method. -/
def c7Bad : Sample :=
  {c7Sample with chip_method := "chipseq"}

/-- A filesystem holding the cached ataqv output of `c7Sample`. -/
def c7FS : FS := [(ataqvOutFile c7Sample, "cached")]

/-- A filesystem holding the cached ataqv output of `c7Bad`. -/
def c7FSbad : FS := [(ataqvOutFile c7Bad, "cached")]

theorem fsLookup_insert (fs : FS) (p c q : String) :
    fsLookup (fsInsert fs p c) q = if p = q then some c else fsLookup fs q := by
  by_cases h : p = q
  · simp [fsLookup, fsInsert, List.find?, h]
  · simp only [fsLookup, fsInsert, List.find?]
    have hb : (p == q) = false := by simp [h]
    simp [hb, h, fsLookup]

theorem split_step_fst (sb : String) (nc : Nat) (bamf : String) (exec : ExtCmd → String)
    (acc : List (String × String) × FS × List ExtCmd) (r : ATACRange) :
    (split_step sb nc bamf exec acc r).1 = acc.1 ++ [(r.label, splitOutFile bamf r.label)] := by
  simp only [split_step]
  split <;> rfl

theorem split_fold_fst (sb : String) (nc : Nat) (bamf : String) (exec : ExtCmd → String)
    (rs : List ATACRange) :
    ∀ (sf : List (String × String)) (fs : FS) (cmds : List ExtCmd),
      (rs.foldl (split_step sb nc bamf exec) (sf, fs, cmds)).1 =
        sf ++ rs.map (fun r => (r.label, splitOutFile bamf r.label)) := by
  induction rs with
  | nil => intro sf fs cmds; simp
  | cons r rs ih =>
    intro sf fs cmds
    rw [List.foldl_cons]
    have h := ih (split_step sb nc bamf exec (sf, fs, cmds) r).1
      (split_step sb nc bamf exec (sf, fs, cmds) r).2.1
      (split_step sb nc bamf exec (sf, fs, cmds) r).2.2
    rw [h, split_step_fst]
    simp

theorem split_fold_preserve (sb : String) (nc : Nat) (bamf : String) (exec : ExtCmd → String)
    (rs : List ATACRange) :
    ∀ (sf : List (String × String)) (fs : FS) (cmds : List ExtCmd) (target c : String),
      fsLookup fs target = some c →
      fsLookup (rs.foldl (split_step sb nc bamf exec) (sf, fs, cmds)).2.1 target = some c ∧
      ∀ cm ∈ (rs.foldl (split_step sb nc bamf exec) (sf, fs, cmds)).2.2,
        cm ∈ cmds ∨ cm.target ≠ target := by
  induction rs with
  | nil =>
    intro sf fs cmds target c hc
    exact ⟨hc, fun cm hm => Or.inl hm⟩
  | cons r rs ih =>
    intro sf fs cmds target c hc
    rw [List.foldl_cons]
    by_cases h : fsExists fs (splitOutFile bamf r.label)
    · have hstep : split_step sb nc bamf exec (sf, fs, cmds) r =
          (sf ++ [(r.label, splitOutFile bamf r.label)], fs, cmds) := by
        simp only [split_step]
        rw [if_pos h]
      rw [hstep]
      exact ih _ fs cmds target c hc
    · have hne : splitOutFile bamf r.label ≠ target := by
        intro he
        apply h
        rw [he]
        simp [fsExists, hc]
      have hstep : split_step sb nc bamf exec (sf, fs, cmds) r =
          (sf ++ [(r.label, splitOutFile bamf r.label)],
           fsInsert fs (splitOutFile bamf r.label)
             (exec (ExtCmd.sambambaView sb nc r.label r.min r.max bamf (splitOutFile bamf r.label))),
           cmds ++ [ExtCmd.sambambaView sb nc r.label r.min r.max bamf (splitOutFile bamf r.label),
                    ExtCmd.bamIndex (splitOutFile bamf r.label)]) := by
        simp only [split_step]
        rw [if_neg h]
      rw [hstep]
      have hc' : fsLookup (fsInsert fs (splitOutFile bamf r.label)
          (exec (ExtCmd.sambambaView sb nc r.label r.min r.max bamf (splitOutFile bamf r.label))))
          target = some c := by
        rw [fsLookup_insert, if_neg hne, hc]
      obtain ⟨h1, h2⟩ := ih _ _ _ target c hc'
      refine ⟨h1, fun cm hm => ?_⟩
      rcases h2 cm hm with hmem | hne'
      · rcases List.mem_append.mp hmem with hold | hnew
        · exact Or.inl hold
        · right
          have : cm = ExtCmd.sambambaView sb nc r.label r.min r.max bamf (splitOutFile bamf r.label) ∨
              cm = ExtCmd.bamIndex (splitOutFile bamf r.label) := by
            simpa using hnew
          rcases this with rfl | rfl
          · exact hne
          · exact hne
      · exact Or.inr hne'

theorem get_paired_eq_find (s : Sample) (d : List Sample) :
    _get_paired_samples s d =
      (d.find? (fun o => pyIn s.batch o.batch && o.phenotype == "input")).map
        (fun c => {s with work_bam_input := some c.work_bam}) := by
  induction d with
  | nil => rfl
  | cons o rest ih =>
    cases h : (pyIn s.batch o.batch && o.phenotype == "input") with
    | true => simp [_get_paired_samples, List.find?, h]
    | false => simp [_get_paired_samples, List.find?, h, ih]

/-- C4: for every range of the fixed catalog, the sambamba filter predicate
built by `split_ATAC` accepts a template length `L` iff `min < L < max`, both
inequalities strict; every boundary value of the catalog is rejected by the
ranges it bounds. -/
theorem atac_range_filter_strict :
    ∀ r : ATACRange, r ∈ atacRangesValues →
      (∀ L : Int, templateLengthFilter r.min r.max L = true ↔ r.min < L ∧ L < r.max) ∧
      (∀ b : Int, b ∈ ([100, 180, 247, 315, 473, 558, 615] : List Int) →
        (b = r.min ∨ b = r.max) → templateLengthFilter r.min r.max b = false) := by
  intro r hr
  fin_cases hr <;>
    exact ⟨fun L => by simp [templateLengthFilter], by decide⟩

theorem atac_range_filter_strict_witness :
    (⟨"NF", 0, 100⟩ : ATACRange) ∈ atacRangesValues ∧
      templateLengthFilter 0 100 100 = false :=
  ⟨by decide,
   (atac_range_filter_strict ⟨"NF", 0, 100⟩ (by decide)).2 100 (by decide) (Or.inr rfl)⟩

/-- C5: `split_ATAC` always stores at `atac.align` the mapping with exactly
the keys `NF`, `MN`, `DN`, `TN`, `full`, where each range label maps to the
BAM stem extended with `-{label}.bam` and `full` maps to the resolved input
BAM, whatever the state of the filesystem (fresh or pre-existing outputs). -/
theorem split_ATAC_align_keys (data : Sample) (b : Option String) (fs : FS)
    (exec : ExtCmd → String) :
    (split_ATAC data b fs exec).1.atac_align =
      some [("NF", splitOutFile (split_bam_resolved data b) "NF"),
            ("MN", splitOutFile (split_bam_resolved data b) "MN"),
            ("DN", splitOutFile (split_bam_resolved data b) "DN"),
            ("TN", splitOutFile (split_bam_resolved data b) "TN"),
            ("full", split_bam_resolved data b)] := by
  simp only [split_ATAC]
  rw [split_fold_fst]
  simp [atacRangesValues, ATACRanges]

/-- C2: `_get_paired_samples` returns, as the paired control, the first
sample group in iteration order whose phenotype is `"input"` and whose batch
value contains the chip sample's batch id, and sets the task's
`work_bam_input` to that control's work BAM (`none` exactly when no group
matches). -/
theorem get_paired_samples_first_input_match (s : Sample) (d : List Sample) :
    _get_paired_samples s d =
      (d.find? (fun o => pyIn s.batch o.batch && o.phenotype == "input")).map
        (fun c => {s with work_bam_input := some c.work_bam}) :=
  get_paired_eq_find s d

/-- C6: both memoized operations skip all external work when their output
already exists.  (a) When the metrics file exists,
`calculate_complexity_metrics` runs no command, leaves the filesystem (hence
the file's content) unchanged, and records the existing path.  (b) When a
per-label split BAM exists, `split_ATAC` preserves its content and runs no
command targeting it. -/
theorem memoization_skips_commands :
    (∀ (work_bam : String) (data : Sample) (fs : FS) (exec : ExtCmd → String),
      fsExists fs (metricsFilePath data) = true →
      calculate_complexity_metrics work_bam data fs exec =
        ({data with atac_complexity_metrics_file := some (metricsFilePath data)}, fs, [])) ∧
    (∀ (data : Sample) (b : Option String) (fs : FS) (exec : ExtCmd → String)
        (label c : String),
      fsLookup fs (splitOutFile (split_bam_resolved data b) label) = some c →
      fsLookup (split_ATAC data b fs exec).2.1
          (splitOutFile (split_bam_resolved data b) label) = some c ∧
      ∀ cm ∈ (split_ATAC data b fs exec).2.2,
        cm.target ≠ splitOutFile (split_bam_resolved data b) label) := by
  constructor
  · intro work_bam data fs exec h
    simp only [calculate_complexity_metrics]
    rw [if_pos h]
  · intro data b fs exec label c h
    obtain ⟨h1, h2⟩ := split_fold_preserve data.prog_sambamba data.num_cores
      (split_bam_resolved data b) exec atacRangesValues [] fs []
      (splitOutFile (split_bam_resolved data b) label) c h
    refine ⟨h1, fun cm hm => ?_⟩
    rcases h2 cm hm with hmem | hne
    · exact absurd hmem (List.not_mem_nil cm)
    · exact hne

theorem sync_step_of_pred_false (o p : Sample)
    (h : (p.name == o.name && p.peaks_file != some "error") = false) :
    sync_step o p = o := by
  by_cases hn : o.name = p.name
  · have hb : (p.name == o.name) = true := by simp [hn]
    have hpf : (p.peaks_file != some "error") = false := by
      cases hpf : (p.peaks_file != some "error") with
      | false => rfl
      | true => rw [hb, hpf] at h; simp at h
    simp [sync_step, hn, hpf]
  · simp [sync_step, hn]

theorem sync_step_of_pred_true (o p : Sample)
    (h : (p.name == o.name && p.peaks_file != some "error") = true) :
    sync_step o p = {o with peaks_file := p.peaks_file} := by
  obtain ⟨h1, h2⟩ := Bool.and_eq_true_iff.mp h
  have hn : o.name = p.name := (beq_iff_eq.mp h1).symm
  simp [sync_step, hn, h2]

theorem syncResultSpec_peaks_update (ps : List Sample) (o : Sample) (v : Option String) :
    syncResultSpec ps {o with peaks_file := v} =
      match ps.reverse.find? (fun q => q.name == o.name && q.peaks_file != some "error") with
      | some q => {o with peaks_file := q.peaks_file}
      | none => {o with peaks_file := v} := rfl

theorem sync_foldl_eq_spec (ps : List Sample) :
    ∀ o : Sample, ps.foldl sync_step o = syncResultSpec ps o := by
  induction ps with
  | nil => intro o; rfl
  | cons p ps ih =>
    intro o
    rw [List.foldl_cons]
    cases hpred : (p.name == o.name && p.peaks_file != some "error") with
    | false =>
      rw [sync_step_of_pred_false o p hpred, ih o]
      simp only [syncResultSpec, List.reverse_cons, List.find?_append]
      cases hf : ps.reverse.find? (fun q => q.name == o.name && q.peaks_file != some "error") <;>
        simp [hf, List.find?, hpred]
    | true =>
      rw [sync_step_of_pred_true o p hpred, ih, syncResultSpec_peaks_update]
      simp only [syncResultSpec, List.reverse_cons, List.find?_append]
      cases hf : ps.reverse.find? (fun q => q.name == o.name && q.peaks_file != some "error") <;>
        simp [hf, List.find?, hpred]

/-- C3: `_sync` maps each original sample to itself with `peaks_file`
overwritten by the last name-matching dispatched result whose `peaks_file` is
not the sentinel `"error"`; when every name-matching result carries
`"error"` (or none matches), the original sample — its prior `peaks_file`
included — is left untouched. -/
theorem sync_overwrites_iff_not_error (original processed : List Sample) :
    _sync original processed = original.map (syncResultSpec processed) := by
  simp only [_sync]
  have h : (fun o => processed.foldl sync_step o) = syncResultSpec processed :=
    funext (fun o => sync_foldl_eq_spec processed o)
  rw [h]

theorem prep_step_noneV (d : List Sample) (tp : List Sample) (logs : List String)
    (c : String) :
    prep_step d (MimicVal.noneV, tp, logs) c = (MimicVal.noneV, tp, logs) := rfl

theorem prep_fold_from_noneV (d : List Sample) (cs : List String) :
    ∀ (tp : List Sample) (logs : List String),
      cs.foldl (prep_step d) (MimicVal.noneV, tp, logs) = (MimicVal.noneV, tp, logs) := by
  induction cs with
  | nil => intro tp logs; rfl
  | cons c cs ih =>
    intro tp logs
    rw [List.foldl_cons, prep_step_noneV]
    exact ih tp logs

theorem prep_loop_no_input (d : List Sample) (s : Sample)
    (hchip : s.phenotype = "chip")
    (hpair : d.find? (fun o => pyIn s.batch o.batch && o.phenotype == "input") = none)
    (cs : List String) :
    "macs2" ∈ cs →
    ∀ (tp : List Sample) (logs : List String),
      cs.foldl (prep_step d) (MimicVal.samp s, tp, logs) =
        (MimicVal.noneV, tp, logs ++ ["No input sample for " ++ s.name]) := by
  induction cs with
  | nil => intro h; simp at h
  | cons c cs ih =>
    intro hmem tp logs
    rw [List.foldl_cons]
    by_cases hc : c = "macs2"
    · subst hc
      have hcond : (callerKeys.contains "macs2" && s.phenotype == "chip") = true := by
        rw [hchip]
        rfl
      have hpair' : _get_paired_samples {s with peak_fn := some "macs2"} d = none := by
        rw [get_paired_eq_find]
        rw [show ({s with peak_fn := some "macs2"} : Sample).batch = s.batch from rfl]
        rw [hpair]
        rfl
      have hstep : prep_step d (MimicVal.samp s, tp, logs) "macs2" =
          (MimicVal.noneV, tp, logs ++ ["No input sample for " ++ s.name]) := by
        simp only [prep_step]
        rw [if_pos hcond, hpair']
      rw [hstep]
      exact prep_fold_from_noneV d cs tp (logs ++ ["No input sample for " ++ s.name])
    · have hcc : callerKeys.contains c = false := by
        cases hb : (c == "macs2") with
        | false => simp [callerKeys, List.contains, List.elem, hb]
        | true => exact absurd (beq_iff_eq.mp hb) hc
      have hcond : (callerKeys.contains c && s.phenotype == "chip") = false := by
        rw [hcc]
        rfl
      have hstep : prep_step d (MimicVal.samp s, tp, logs) c = (MimicVal.samp s, tp, logs) := by
        simp only [prep_step, hcond]
        rw [if_neg Bool.false_ne_true]
      rw [hstep]
      have hmem' : "macs2" ∈ cs := by
        rcases List.mem_cons.mp hmem with h | h
        · subst h
          exact absurd rfl hc
        · exact h
      exact ih hmem' tp logs

theorem prep_fold_append (ctx : List Sample) (l : List Sample) :
    ∀ acc : List Sample × List String,
      l.foldl (prep_fold ctx) acc =
        (acc.1 ++ (l.foldl (prep_fold ctx) ([], [])).1,
         acc.2 ++ (l.foldl (prep_fold ctx) ([], [])).2) := by
  induction l with
  | nil => intro acc; simp
  | cons s l ih =>
    intro acc
    rw [List.foldl_cons, List.foldl_cons, ih (prep_fold ctx acc s),
        ih (prep_fold ctx ([], []) s)]
    simp [prep_fold]

theorem prep_sample_no_caller_key (d : List Sample) (s : Sample)
    (h : s.peakcaller = none) : prep_sample d s = ([], []) := by
  simp only [prep_sample, h]
  rfl

theorem prep_all_no_caller (d : List Sample) :
    ∀ ctx : List Sample, (∀ s ∈ d, s.peakcaller = none) →
      d.foldl (prep_fold ctx) ([], []) = ([], []) := by
  induction d with
  | nil => intro ctx _; rfl
  | cons s l ih =>
    intro ctx h
    rw [List.foldl_cons]
    have h1 : prep_fold ctx ([], []) s = ([], []) := by
      simp [prep_fold, prep_sample_no_caller_key ctx s (h s (by simp))]
    rw [h1]
    exact ih ctx (fun x hx => h x (by simp [hx]))

/-- C9: with no `"peakcaller"` entry the caller loop iterates the default
string `"macs2"` character by character; no one-character name is a key of
the caller registry, so a sample without the entry contributes no task, and a
collection of such samples is dispatched nowhere and returned unchanged. -/
theorem default_peakcaller_chars_no_tasks (d : List Sample)
    (runP : String → List Sample → List Sample) :
    iterPeakcaller (PeakcallerVal.str "macs2") = ["m", "a", "c", "s", "2"] ∧
    (∀ c ∈ iterPeakcaller (PeakcallerVal.str "macs2"), callerKeys.contains c = false) ∧
    (∀ s : Sample, s.peakcaller = none → prep_sample d s = ([], [])) ∧
    ((∀ s ∈ d, s.peakcaller = none) → peakcall_preparation d runP = (d, [])) := by
  refine ⟨rfl, by decide, fun s h => prep_sample_no_caller_key d s h, fun h => ?_⟩
  simp only [peakcall_preparation]
  rw [prep_all_no_caller d d h]
  rfl

theorem default_peakcaller_chars_no_tasks_witness :
    (∀ s ∈ [c6Sample], s.peakcaller = none) ∧
      peakcall_preparation [c6Sample] runPId = ([c6Sample], []) :=
  ⟨by decide, (default_peakcaller_chars_no_tasks [c6Sample] runPId).2.2.2 (by decide)⟩

/-- C8: a chip sample with a registry caller configured but no paired control
(no group with phenotype `"input"` and a containing batch value) is logged
and contributes no dispatched task; the task batch equals the batch built
from the remaining samples alone, and the function still returns the
(possibly merged) original collection. -/
theorem peakcall_skips_unpaired (d1 d2 : List Sample) (s : Sample)
    (runP : String → List Sample → List Sample)
    (hchip : s.phenotype = "chip")
    (hcfg : "macs2" ∈ iterPeakcaller (s.peakcaller.getD (PeakcallerVal.str "macs2")))
    (hpair : (d1 ++ s :: d2).find?
      (fun o => pyIn s.batch o.batch && o.phenotype == "input") = none) :
    prep_sample (d1 ++ s :: d2) s = ([], ["No input sample for " ++ s.name]) ∧
    ((d1 ++ s :: d2).foldl (prep_fold (d1 ++ s :: d2)) ([], [])).1 =
      ((d1 ++ d2).foldl (prep_fold (d1 ++ s :: d2)) ([], [])).1 ∧
    peakcall_preparation (d1 ++ s :: d2) runP =
      (if ((d1 ++ s :: d2).foldl (prep_fold (d1 ++ s :: d2)) ([], [])).1.isEmpty
       then d1 ++ s :: d2
       else _sync (d1 ++ s :: d2)
         (runP "peakcalling" ((d1 ++ s :: d2).foldl (prep_fold (d1 ++ s :: d2)) ([], [])).1),
       ((d1 ++ s :: d2).foldl (prep_fold (d1 ++ s :: d2)) ([], [])).2) := by
  have hone : prep_sample (d1 ++ s :: d2) s = ([], ["No input sample for " ++ s.name]) := by
    simp only [prep_sample]
    rw [prep_loop_no_input (d1 ++ s :: d2) s hchip hpair _ hcfg [] []]
    simp
  refine ⟨hone, ?_, ?_⟩
  · rw [List.foldl_append, List.foldl_append, List.foldl_cons]
    have hmid : prep_fold (d1 ++ s :: d2) (d1.foldl (prep_fold (d1 ++ s :: d2)) ([], [])) s =
        ((d1.foldl (prep_fold (d1 ++ s :: d2)) ([], [])).1,
         (d1.foldl (prep_fold (d1 ++ s :: d2)) ([], [])).2 ++ ["No input sample for " ++ s.name]) := by
      simp [prep_fold, hone]
    rw [hmid]
    rw [prep_fold_append (d1 ++ s :: d2) d2
        ((d1.foldl (prep_fold (d1 ++ s :: d2)) ([], [])).1,
         (d1.foldl (prep_fold (d1 ++ s :: d2)) ([], [])).2 ++ ["No input sample for " ++ s.name])]
    rw [prep_fold_append (d1 ++ s :: d2) d2 (d1.foldl (prep_fold (d1 ++ s :: d2)) ([], []))]
  · simp only [peakcall_preparation]
    by_cases hc : ((d1 ++ s :: d2).foldl (prep_fold (d1 ++ s :: d2)) ([], [])).1.isEmpty = true
    · rw [if_pos hc, if_pos hc]
    · rw [if_neg hc, if_neg hc]

theorem peakcall_skips_unpaired_witness :
    (c8Chip.phenotype = "chip" ∧
     "macs2" ∈ iterPeakcaller (c8Chip.peakcaller.getD (PeakcallerVal.str "macs2")) ∧
     ([] ++ c8Chip :: [c8Ctrl]).find?
       (fun o : Sample => pyIn c8Chip.batch o.batch && o.phenotype == "input") = none) ∧
    prep_sample ([] ++ c8Chip :: [c8Ctrl]) c8Chip = ([], ["No input sample for " ++ c8Chip.name]) :=
  ⟨⟨rfl, by decide, by decide⟩,
   (peakcall_skips_unpaired [] [c8Ctrl] c8Chip runPId rfl (by decide) (by decide)).1⟩

theorem memoization_skips_commands_witness :
    (fsExists c6FS (metricsFilePath c6Sample) = true ∧
      calculate_complexity_metrics "work/s1.bam" c6Sample c6FS execStub =
        ({c6Sample with atac_complexity_metrics_file := some (metricsFilePath c6Sample)},
         c6FS, [])) ∧
    (fsLookup c6FS (splitOutFile (split_bam_resolved c6Sample none) "MN") = some "mnbam" ∧
      ∀ cm ∈ (split_ATAC c6Sample none c6FS execStub).2.2,
        cm.target ≠ splitOutFile (split_bam_resolved c6Sample none) "MN") :=
  ⟨⟨by decide, memoization_skips_commands.1 "work/s1.bam" c6Sample c6FS execStub (by decide)⟩,
   ⟨by decide,
    (memoization_skips_commands.2 c6Sample none c6FS execStub "MN" "mnbam" (by decide)).2⟩⟩

theorem dictGet_raw_mt (a b c d : Int) :
    dictGet [("mt", a), ("m0", b), ("m1", c), ("m2", d)] "mt" = .ok a := rfl

theorem dictGet_raw_m0 (a b c d : Int) :
    dictGet [("mt", a), ("m0", b), ("m1", c), ("m2", d)] "m0" = .ok b := rfl

theorem dictGet_raw_m1 (a b c d : Int) :
    dictGet [("mt", a), ("m0", b), ("m1", c), ("m2", d)] "m1" = .ok c := rfl

theorem dictGet_raw_m2 (a b c d : Int) :
    dictGet [("mt", a), ("m0", b), ("m1", c), ("m2", d)] "m2" = .ok d := rfl

/-- C1 (amended): for a recorded raw metrics record `(mt, m0, m1, m2)` with
`m0 > 0` and `mt > 0`, the returned map is exactly
`PBC1 = m1/m0`, `NRF = m0/mt`, and `PBC2 = 0` when `m2 = 0`, else
`PBC2 = m1/m2` (exact rational equality). -/
theorem encode_complexity_metrics_values (mt m0 m1 m2 : Nat) (data : Sample) (fs : FS)
    (mf content : String)
    (hmf : data.atac_complexity_metrics_file = some mf)
    (hne : (mf == "") = false)
    (hfile : fsLookup fs mf = some content)
    (hparse : parseRawMetrics content =
      Except.ok [("mt", (mt : Int)), ("m0", (m0 : Int)), ("m1", (m1 : Int)), ("m2", (m2 : Int))])
    (hm0 : 0 < m0) (hmt : 0 < mt) :
    calculate_encode_complexity_metrics data fs =
      Except.ok [("PBC1", (m1 : Rat) / (m0 : Rat)), ("NRF", (m0 : Rat) / (mt : Rat)),
                 ("PBC2", if m2 = 0 then 0 else (m1 : Rat) / (m2 : Rat))] := by
  have hm0' : ¬ ((m0 : Int) = 0) := by
    simp only [Int.natCast_eq_zero]
    omega
  have hmt' : ¬ ((mt : Int) = 0) := by
    simp only [Int.natCast_eq_zero]
    omega
  simp only [calculate_encode_complexity_metrics, hmf, hne, hfile, hparse]
  simp only [encodeMetricsFromRaw, dictGet_raw_mt, dictGet_raw_m0, dictGet_raw_m1,
    dictGet_raw_m2, pydiv, if_neg hm0', if_neg hmt']
  by_cases hm2 : m2 = 0
  · subst hm2
    simp
  · have hm2' : ¬ ((m2 : Int) = 0) := by
      simp only [Int.natCast_eq_zero]
      omega
    simp only [if_neg hm2', if_neg hm2]
    simp

theorem encode_complexity_metrics_values_witness :
    (0 : Nat) < 10 ∧
    calculate_encode_complexity_metrics c1Sample c1FSok =
      Except.ok [("PBC1", (4 : Rat) / 5), ("NRF", (5 : Rat) / 6), ("PBC2", 8)] :=
  ⟨by decide, by
    have h := encode_complexity_metrics_values 12 10 8 1 c1Sample c1FSok "mf"
      "mt,m0,m1,m2\n12,10,8,1\n" rfl rfl rfl rfl (by decide) (by decide)
    rw [h]
    norm_num⟩

/-- C1 counterexample: the record `(mt, m0, m1, m2) = (0, 1, 1, 0)` has
non-negative fields and `m0 > 0`, yet `calculate_encode_complexity_metrics`
raises `ZeroDivisionError` (computing `NRF = m0/mt`) instead of returning a
metrics map. -/
theorem encode_complexity_metrics_mt_zero_cex :
    parseRawMetrics "mt,m0,m1,m2\n0,1,1,0\n" =
      Except.ok [("mt", 0), ("m0", 1), ("m1", 1), ("m2", 0)] ∧
    calculate_encode_complexity_metrics c1Sample c1FSbad =
      Except.error "ZeroDivisionError" :=
  ⟨rfl, rfl⟩

/-- C10: on any recorded metrics file whose data row has `m0 = 0`, the
operation fails with `ZeroDivisionError` (while computing `PBC1 = m1/m0`)
instead of returning a metrics map — only the `m2 = 0` divisor is guarded. -/
theorem encode_metrics_m0_zero_error (mtv m1v m2v : Int) (data : Sample) (fs : FS)
    (mf content : String)
    (hmf : data.atac_complexity_metrics_file = some mf)
    (hne : (mf == "") = false)
    (hfile : fsLookup fs mf = some content)
    (hparse : parseRawMetrics content =
      Except.ok [("mt", mtv), ("m0", 0), ("m1", m1v), ("m2", m2v)]) :
    calculate_encode_complexity_metrics data fs = Except.error "ZeroDivisionError" := by
  simp only [calculate_encode_complexity_metrics, hmf, hne, hfile, hparse]
  simp only [encodeMetricsFromRaw, dictGet_raw_m0, dictGet_raw_m1]
  rfl

theorem encode_metrics_m0_zero_error_witness :
    parseRawMetrics "mt,m0,m1,m2\n5,0,3,2\n" =
      Except.ok [("mt", 5), ("m0", 0), ("m1", 3), ("m2", 2)] ∧
    calculate_encode_complexity_metrics c1Sample c10FS = Except.error "ZeroDivisionError" :=
  ⟨rfl, encode_metrics_m0_zero_error 5 3 2 c1Sample c10FS "mf" "mt,m0,m1,m2\n5,0,3,2\n"
    rfl rfl rfl rfl⟩

/-- C7 (amended): for a sample whose assay method is `"atac"` and whose NF
peak file and NF BAM are recorded (truthy), if the deterministic ataqv output
already exists, `run_ataqv` returns that path immediately, running no
external command and leaving the filesystem unchanged. -/
theorem run_ataqv_cached_returns (data : Sample) (fs : FS) (exec : ExtCmd → String)
    (hm : data.chip_method = "atac")
    (hp : optFalsy (get_NF_peaks data) = false)
    (hb : optFalsy (get_NF_bam data) = false)
    (hex : fsExists fs (ataqvOutFile data) = true) :
    run_ataqv data fs exec = Except.ok (some (ataqvOutFile data), fs, []) := by
  simp only [run_ataqv, hm, hp, hb, hex]
  rfl

theorem run_ataqv_cached_returns_witness :
    (c7Sample.chip_method = "atac" ∧
     optFalsy (get_NF_peaks c7Sample) = false ∧
     optFalsy (get_NF_bam c7Sample) = false ∧
     fsExists c7FS (ataqvOutFile c7Sample) = true) ∧
    run_ataqv c7Sample c7FS execStub = Except.ok (some (ataqvOutFile c7Sample), c7FS, []) :=
  ⟨⟨rfl, by decide, by decide, by decide⟩,
   run_ataqv_cached_returns c7Sample c7FS execStub rfl (by decide) (by decide) (by decide)⟩

/-- C7 counterexample: a sample whose assay method is not `"atac"` has its
deterministic ataqv output present on disk, yet `run_ataqv` returns `none`
rather than that path. -/
theorem run_ataqv_cached_requires_atac_cex :
    fsExists c7FSbad (ataqvOutFile c7Bad) = true ∧
    run_ataqv c7Bad c7FSbad execStub = Except.ok (none, c7FSbad, []) :=
  ⟨by decide, rfl⟩
